import Mathlib

/-!
Shallow embedding of the physics core of `explosions.py` (a 2D ball-explosion
simulation).  Coordinates, velocities and radii are modelled as exact rationals;
the canvas is the fixed 500 by 500 square used literally by the source.  The UI
shell (tkinter widgets, drawing, input validation) is out of scope; the embedded
state consists of the module-level simulation variables `balls`,
`explosion_balls` and `velocity`, and the embedded operations are `Ball.move`,
`check_collision`, `handle_collision`, `create_explosion`, `refresh_simulation`,
`throw_ball` and the per-frame `update`.
-/

namespace Explosions

/-- Gravity acceleration constant, `GRAVITY = 0.5` in the source. -/
def GRAVITY : ℚ := 1/2

/-- Energy retention factor for bounces, `BOUNCE_FACTOR = 0.7` in the source. -/
def BOUNCE_FACTOR : ℚ := 7/10

/-- Radius of the main ball, `BALL_RADIUS = 10` in the source. -/
def BALL_RADIUS : ℚ := 10

/-- Radius of explosion particles, `EXPLOSION_BALL_RADIUS = 5` in the source. -/
def EXPLOSION_BALL_RADIUS : ℚ := 5

/-- One circular body: the `Ball` class of the source, with fields
`x`, `y`, `dx`, `dy`, `radius`, `color`. -/
structure Ball where
  x : ℚ
  y : ℚ
  dx : ℚ
  dy : ℚ
  radius : ℚ
  color : String
deriving DecidableEq, Repr

/-- Method `Ball.move` of the source: `x += dx; y += dy; dy += GRAVITY`
(semi-implicit Euler: the position update uses the pre-step velocity, gravity
only affects the next step). -/
def Ball.move (b : Ball) : Ball :=
  { b with x := b.x + b.dx, y := b.y + b.dy, dy := b.dy + GRAVITY }

/-- Function `check_collision` of the source:
`sqrt((x1-x2)^2 + (y1-y2)^2) < r1 + r2`.  Over the reals, for a nonnegative
square root, `sqrt d2 < s` holds iff `0 < s` and `d2 < s^2`; the embedding uses
that square-root-free form so the predicate is exact over `ℚ`. -/
def check_collision (b1 b2 : Ball) : Bool :=
  decide (0 < b1.radius + b2.radius ∧
    (b1.x - b2.x)^2 + (b1.y - b2.y)^2 < (b1.radius + b2.radius)^2)

/-- Function `handle_collision` of the source.  The source computes
`distance = sqrt(dx^2 + dy^2)`, returns unchanged when `distance == 0`,
normalizes `(dx, dy)` by `distance`, sets
`impulse = 2 * (dvx*nx + dvy*ny) / 2 = dvx*nx + dvy*ny`, and applies
`±impulse*(nx, ny)` to the velocities.  Since
`impulse * nx = ((dvx*dx + dvy*dy) / distance^2) * dx` and
`distance^2 = dx^2 + dy^2`, the applied velocity change is a rational function
of the inputs; the embedding uses that square-root-free form, which is exact.
The guard `distance == 0` is equivalent to `dx^2 + dy^2 = 0`. -/
def handle_collision (b1 b2 : Ball) : Ball × Ball :=
  let dx := b1.x - b2.x
  let dy := b1.y - b2.y
  let d2 := dx^2 + dy^2
  if d2 = 0 then (b1, b2)
  else
    let dvx := b1.dx - b2.dx
    let dvy := b1.dy - b2.dy
    let j := (dvx * dx + dvy * dy) / d2
    ({ b1 with dx := b1.dx - j * dx, dy := b1.dy - j * dy },
     { b2 with dx := b2.dx + j * dx, dy := b2.dy + j * dy })

/-- One random draw consumed by `create_explosion` for one fragment.  The
source draws `angle ~ U[0, 2π)`, `speed ~ U[0.2*velocity, 0.4*velocity]` and a
random color, and uses only `(cos(angle)*speed, sin(angle)*speed, color)`;
the injected random source supplies exactly those three used values
(`vdx = cos(angle)*speed`, `vdy = sin(angle)*speed`). -/
structure Draw where
  vdx : ℚ
  vdy : ℚ
  color : String

/-- Function `create_explosion(x, y, velocity)` of the source, with the global
random generator made explicit as a stream `R` of draws and a cursor `k` into
it.  `num_particles = int(velocity / 2)` (truncation toward zero; for
`velocity ≤ 0` the `range` is empty, which `Int.toNat` reproduces); each new
particle sits at `(x, y)` with radius `EXPLOSION_BALL_RADIUS` and the drawn
velocity.  Returns the list of appended particles and the advanced cursor. -/
def create_explosion (x y : ℚ) (velocity : ℤ) (R : ℕ → Draw) (k : ℕ) :
    List Ball × ℕ :=
  let num_particles := (velocity / 2).toNat
  ((List.range num_particles).map (fun i =>
      let d := R (k + i)
      { x := x, y := y, dx := d.vdx, dy := d.vdy,
        radius := EXPLOSION_BALL_RADIUS, color := d.color }),
   k + num_particles)

/-- Horizontal wall branch of `update`:
`if ball.x + ball.radius > 500: clamp right, damp dx`
`elif ball.x - ball.radius < 0: clamp left, damp dx`. -/
def resolveWallsX (b : Ball) : Ball :=
  if 500 < b.x + b.radius then
    { b with x := 500 - b.radius, dx := b.dx * -BOUNCE_FACTOR }
  else if b.x - b.radius < 0 then
    { b with x := b.radius, dx := b.dx * -BOUNCE_FACTOR }
  else b

/-- Vertical wall branch of `update`:
`if ball.y + ball.radius > 500: clamp bottom, damp dy`
`elif ball.y - ball.radius < 0: clamp top, damp dy`. -/
def resolveWallsY (b : Ball) : Ball :=
  if 500 < b.y + b.radius then
    { b with y := 500 - b.radius, dy := b.dy * -BOUNCE_FACTOR }
  else if b.y - b.radius < 0 then
    { b with y := b.radius, dy := b.dy * -BOUNCE_FACTOR }
  else b

/-- The full four-branch wall resolution applied by `update` to a particle:
the horizontal pair first, then the vertical pair (the source tests the
vertical conditions after any horizontal clamp, but the horizontal branch never
changes `y`, `dy` or `radius`, so the composition is exact). -/
def resolveWalls (b : Ball) : Ball :=
  resolveWallsY (resolveWallsX b)

/-- Body of the explosion-particle loop of `update` for one particle:
`ball.move()` followed by the four wall branches (no fragmentation, no
removal). -/
def updateExplosionBall (b : Ball) : Ball :=
  resolveWalls b.move

/-- The main-ball loop of `update`, including the source's
remove-while-iterating behaviour.  The Python loop walks `balls` by index;
a ball whose moved position crosses the right wall is clamped, damped,
triggers `create_explosion(ball.x, ball.y, velocity)` at the clamped `x` and
the post-move (not yet clamped) `y`, and is removed from the list via
`balls.remove(ball)` — which shifts the remainder left so the iterator skips
the immediately following ball (that ball keeps its state unchanged this
frame).  All `Ball` objects in `balls` are distinct objects, so `remove`
deletes exactly the current position.  Any ball not crossing the right wall
goes through the remaining wall branches.  Returns the surviving main balls in
order, the fragments appended by explosions in order, and the advanced random
cursor. -/
def updateBalls (velocity : ℤ) (R : ℕ → Draw) :
    List Ball → ℕ → List Ball × List Ball × ℕ
  | [], k => ([], [], k)
  | [b], k =>
    let b1 := b.move
    if 500 < b1.x + b1.radius then
      let b2 := { b1 with x := 500 - b1.radius, dx := b1.dx * -BOUNCE_FACTOR }
      let e := create_explosion b2.x b2.y velocity R k
      ([], e.1, e.2)
    else
      ([resolveWalls b1], [], k)
  | b :: skipped :: rest2, k =>
    let b1 := b.move
    if 500 < b1.x + b1.radius then
      let b2 := { b1 with x := 500 - b1.radius, dx := b1.dx * -BOUNCE_FACTOR }
      let e := create_explosion b2.x b2.y velocity R k
      let r := updateBalls velocity R rest2 e.2
      (skipped :: r.1, e.1 ++ r.2.1, r.2.2)
    else
      let r := updateBalls velocity R (skipped :: rest2) k
      (resolveWalls b1 :: r.1, r.2.1, r.2.2)

/-- One inner-loop iteration of the pairwise collision pass:
`if check_collision(explosion_balls[i], explosion_balls[j]):`
`    handle_collision(explosion_balls[i], explosion_balls[j])`,
reading the current (cumulatively updated) list and writing both slots back. -/
def pairStep (l : List Ball) (i j : ℕ) : List Ball :=
  match l.get? i, l.get? j with
  | some a, some b =>
    if check_collision a b then
      let p := handle_collision a b
      (l.set i p.1).set j p.2
    else l
  | _, _ => l

/-- The pairwise collision pass of `update`:
`for i in range(len(explosion_balls)): for j in range(i+1, len(...)): ...`.
The list length is unchanged by `pairStep`, so the index ranges computed from
the initial length match the source (no elements are added or removed during
the pass). -/
def collisionPass (l : List Ball) : List Ball :=
  (List.range l.length).foldl
    (fun acc i =>
      ((List.range l.length).drop (i + 1)).foldl
        (fun acc2 j => pairStep acc2 i j) acc)
    l

/-- Pruning predicate of `update`: a fragment is kept iff
`abs(ball.dx) > 0.1 or abs(ball.dy) > 0.1`. -/
def keepBall (b : Ball) : Bool :=
  decide (1/10 < |b.dx|) || decide (1/10 < |b.dy|)

/-- The module-level simulation state of the source: the lists `balls` and
`explosion_balls` and the global `velocity` recorded by the last launch. -/
structure SimState where
  balls : List Ball
  explosion_balls : List Ball
  velocity : ℤ
deriving DecidableEq, Repr

/-- The initial module state: `velocity = 0`, `balls = []`,
`explosion_balls = []`. -/
def initState : SimState :=
  { balls := [], explosion_balls := [], velocity := 0 }

/-- Function `refresh_simulation` of the source: `balls.clear()` and
`explosion_balls.clear()` (the canvas and text-field clearing are UI-shell
effects outside the embedded state; the global `velocity` is not touched). -/
def refresh_simulation (s : SimState) : SimState :=
  { s with balls := [], explosion_balls := [] }

/-- Core effect of `throw_ball` once the shell has validated the integer `v`:
`velocity = v; balls.append(Ball(50, 250, velocity, 0, BALL_RADIUS, 'red'))`. -/
def throw_ball (v : ℤ) (s : SimState) : SimState :=
  { s with velocity := v,
           balls := s.balls ++
             [{ x := 50, y := 250, dx := (v : ℚ), dy := 0,
                radius := BALL_RADIUS, color := "red" }] }

/-- One frame of the source's `update` function: the main-ball loop (with
fragmentation and removal), then the explosion-particle loop over the old
fragments followed by the ones appended this frame, then the pairwise
collision pass, then pruning.  Threads the random cursor. -/
def update (R : ℕ → Draw) (k : ℕ) (s : SimState) : SimState × ℕ :=
  let bs := updateBalls s.velocity R s.balls k
  let frags1 := (s.explosion_balls ++ bs.2.1).map updateExplosionBall
  let frags2 := collisionPass frags1
  ({ balls := bs.1, explosion_balls := frags2.filter keepBall,
     velocity := s.velocity }, bs.2.2)

/-- Iterate `update` a given number of frames, threading the random cursor. -/
def stepN (R : ℕ → Draw) : ℕ → SimState × ℕ → SimState × ℕ
  | 0, p => p
  | n + 1, p => stepN R n (update R p.2 p.1)

/-- A particle lies within the 500 by 500 canvas:
`radius ≤ x ≤ 500 - radius` and `radius ≤ y ≤ 500 - radius`. -/
def inBounds (b : Ball) : Prop :=
  b.radius ≤ b.x ∧ b.x ≤ 500 - b.radius ∧
  b.radius ≤ b.y ∧ b.y ≤ 500 - b.radius

instance (b : Ball) : Decidable (inBounds b) := by
  unfold inBounds; infer_instance

/-- A degenerate injected random source (used only to instantiate the stream
argument where no fragment is ever drawn from it, or where its values do not
matter). -/
def Rzero : ℕ → Draw := fun _ => { vdx := 0, vdy := 0, color := "black" }

/-! ## Helper lemmas -/

lemma sq_sum_ne_zero {dx dy : ℚ} (h : ¬(dx = 0 ∧ dy = 0)) :
    dx ^ 2 + dy ^ 2 ≠ 0 := by
  intro h0
  have h1 : dx ^ 2 = 0 := le_antisymm (by nlinarith [sq_nonneg dy]) (sq_nonneg dx)
  have h2 : dy ^ 2 = 0 := le_antisymm (by nlinarith [sq_nonneg dx]) (sq_nonneg dy)
  exact h ⟨sq_eq_zero_iff.mp h1, sq_eq_zero_iff.mp h2⟩

lemma handle_collision_pos (a b : Ball) :
    ((handle_collision a b).1.x = a.x ∧ (handle_collision a b).1.y = a.y ∧
     (handle_collision a b).1.radius = a.radius) ∧
    ((handle_collision a b).2.x = b.x ∧ (handle_collision a b).2.y = b.y ∧
     (handle_collision a b).2.radius = b.radius) := by
  simp only [handle_collision]
  split <;> simp

/-! ## C4: elastic collision exchange -/

/-- C4.  For two overlapping particles with distinct centers,
`handle_collision` leaves both positions unchanged, exchanges the velocity
components along the collision direction `d = (a.x - b.x, a.y - b.y)` (the dot
products with `d` are swapped between the two particles; dividing them by the
positive length of `d` gives the components along the unit normal, so the
normal components are exchanged 1:1 — the source's `2 * (...) / 2` impulse is
exactly `v_rel · n`, not a doubled impulse), and leaves the dot products with
the tangent `t = (-d.2, d.1)` of both velocities unchanged. -/
theorem collision_normal_exchange (a b : Ball)
    (hne : ¬(a.x = b.x ∧ a.y = b.y))
    (hover : check_collision a b = true) :
    ((handle_collision a b).1.x = a.x ∧ (handle_collision a b).1.y = a.y ∧
     (handle_collision a b).2.x = b.x ∧ (handle_collision a b).2.y = b.y) ∧
    ((handle_collision a b).1.dx * (a.x - b.x) +
       (handle_collision a b).1.dy * (a.y - b.y)
     = b.dx * (a.x - b.x) + b.dy * (a.y - b.y)) ∧
    ((handle_collision a b).2.dx * (a.x - b.x) +
       (handle_collision a b).2.dy * (a.y - b.y)
     = a.dx * (a.x - b.x) + a.dy * (a.y - b.y)) ∧
    ((handle_collision a b).1.dx * -(a.y - b.y) +
       (handle_collision a b).1.dy * (a.x - b.x)
     = a.dx * -(a.y - b.y) + a.dy * (a.x - b.x)) ∧
    ((handle_collision a b).2.dx * -(a.y - b.y) +
       (handle_collision a b).2.dy * (a.x - b.x)
     = b.dx * -(a.y - b.y) + b.dy * (a.x - b.x)) := by
  have hd2 : (a.x - b.x) ^ 2 + (a.y - b.y) ^ 2 ≠ 0 := by
    refine sq_sum_ne_zero fun hz => hne ⟨?_, ?_⟩
    · exact sub_eq_zero.mp hz.1
    · exact sub_eq_zero.mp hz.2
  simp only [handle_collision]
  rw [if_neg hd2]
  refine ⟨⟨rfl, rfl, rfl, rfl⟩, ?_, ?_, ?_, ?_⟩ <;>
    · show _ = _
      field_simp
      ring

/-- Witness for C4 at the concrete overlapping pair
`a = (x, y, dx, dy) = (3, 0, 1, 1)`, `b = (0, 0, 0, 0)` (both radius 5):
the collision direction is horizontal, so the swap sends `a.dx` to `b` and
leaves the vertical components alone. -/
theorem collision_normal_exchange_witness :
    let a : Ball := { x := 3, y := 0, dx := 1, dy := 1, radius := 5, color := "a" }
    let b : Ball := { x := 0, y := 0, dx := 0, dy := 0, radius := 5, color := "b" }
    ¬(a.x = b.x ∧ a.y = b.y) ∧ check_collision a b = true ∧
    ((handle_collision a b).1.dx * (a.x - b.x) +
       (handle_collision a b).1.dy * (a.y - b.y)
     = b.dx * (a.x - b.x) + b.dy * (a.y - b.y)) := by
  refine ⟨by with_unfolding_all decide, by with_unfolding_all decide, ?_⟩
  exact (collision_normal_exchange _ _ (by with_unfolding_all decide)
    (by with_unfolding_all decide)).2.1

/-! ## C8: coincident-centers safety -/

/-- C8.  If the centers of the two particles coincide, `handle_collision` is a
no-op (both particles returned unchanged), and on the other path — distinct
centers — the normalization divisor `(a.x - b.x)^2 + (a.y - b.y)^2` (the
square of the source's `distance`) is nonzero, so no division by zero occurs
on any reachable path of the collision resolution. -/
theorem coincident_centers_noop (a b : Ball) :
    (a.x = b.x → a.y = b.y → handle_collision a b = (a, b)) ∧
    (¬(a.x = b.x ∧ a.y = b.y) →
      (a.x - b.x) ^ 2 + (a.y - b.y) ^ 2 ≠ 0) := by
  constructor
  · intro h1 h2
    simp only [handle_collision]
    rw [if_pos (by rw [h1, h2]; ring)]
  · intro h
    refine sq_sum_ne_zero fun hz => h ⟨?_, ?_⟩
    · exact sub_eq_zero.mp hz.1
    · exact sub_eq_zero.mp hz.2

/-- Witness for C8: a concrete coincident pair is returned unchanged, and a
concrete distinct pair has a nonzero normalization divisor. -/
theorem coincident_centers_noop_witness :
    let a : Ball := { x := 5, y := 7, dx := 1, dy := 2, radius := 5, color := "a" }
    let b : Ball := { x := 5, y := 7, dx := -3, dy := 4, radius := 5, color := "b" }
    let c : Ball := { x := 6, y := 7, dx := 0, dy := 0, radius := 5, color := "c" }
    handle_collision a b = (a, b) ∧
    (c.x - b.x) ^ 2 + (c.y - b.y) ^ 2 ≠ 0 := by
  refine ⟨(coincident_centers_noop _ _).1 rfl rfl, ?_⟩
  exact (coincident_centers_noop _ _).2 (by with_unfolding_all decide)

/-! ## C10: momentum conservation -/

/-- C10.  `handle_collision` preserves the total velocity of the pair on both
of its paths: the impulse is added to one particle and subtracted from the
other, and the coincident-centers path changes nothing. -/
theorem momentum_conservation (a b : Ball) :
    (handle_collision a b).1.dx + (handle_collision a b).2.dx = a.dx + b.dx ∧
    (handle_collision a b).1.dy + (handle_collision a b).2.dy = a.dy + b.dy := by
  simp only [handle_collision]
  split
  · exact ⟨rfl, rfl⟩
  · exact ⟨by dsimp only; ring, by dsimp only; ring⟩

/-! ## C5: fragmentation count -/

/-- C5.  `create_explosion x y v` appends exactly `⌊v / 2⌋` particles when
`0 < v` (Python's `int(v / 2)` truncates toward zero, which agrees with the
floor for positive `v`), and appends no particle when `v ≤ 0` (the count is
nonpositive, so the loop body never runs). -/
theorem fragmentation_count (x y : ℚ) (v : ℤ) (R : ℕ → Draw) (k : ℕ) :
    (0 < v → ((create_explosion x y v R k).1.length : ℤ) = v / 2) ∧
    (v ≤ 0 → (create_explosion x y v R k).1.length = 0) := by
  unfold create_explosion
  simp only [List.length_map, List.length_range]
  constructor
  · intro hv; omega
  · intro hv; omega

/-- Witness for C5: `v = 20` spawns `10` fragments, `v = 1` spawns `0`,
`v = -4` spawns `0`. -/
theorem fragmentation_count_witness :
    (0 < (20 : ℤ) ∧ ((create_explosion 0 0 20 Rzero 0).1.length : ℤ) = 20 / 2) ∧
    (0 < (1 : ℤ) ∧ ((create_explosion 0 0 1 Rzero 0).1.length : ℤ) = 1 / 2) ∧
    ((-4 : ℤ) ≤ 0 ∧ (create_explosion 0 0 (-4) Rzero 0).1.length = 0) := by
  refine ⟨⟨by decide, ?_⟩, ⟨by decide, ?_⟩, ⟨by decide, ?_⟩⟩
  · exact (fragmentation_count 0 0 20 Rzero 0).1 (by decide)
  · exact (fragmentation_count 0 0 1 Rzero 0).1 (by decide)
  · exact (fragmentation_count 0 0 (-4) Rzero 0).2 (by decide)

/-! ## C1: wall containment invariant -/

lemma inBounds_radius {b : Ball} (h : inBounds b) : b.radius ≤ 250 := by
  obtain ⟨h1, h2, _, _⟩ := h
  linarith

lemma resolveWallsX_preserve (b : Ball) :
    (resolveWallsX b).y = b.y ∧ (resolveWallsX b).dy = b.dy ∧
    (resolveWallsX b).radius = b.radius := by
  unfold resolveWallsX
  split_ifs <;> exact ⟨rfl, rfl, rfl⟩

lemma resolveWallsY_preserve (b : Ball) :
    (resolveWallsY b).x = b.x ∧ (resolveWallsY b).dx = b.dx ∧
    (resolveWallsY b).radius = b.radius := by
  unfold resolveWallsY
  split_ifs <;> exact ⟨rfl, rfl, rfl⟩

lemma resolveWallsX_bounds (b : Ball) (hr : b.radius ≤ 250) :
    b.radius ≤ (resolveWallsX b).x ∧ (resolveWallsX b).x ≤ 500 - b.radius := by
  unfold resolveWallsX
  split_ifs with h1 h2 <;> constructor <;> (try simp) <;> linarith

lemma resolveWallsY_bounds (b : Ball) (hr : b.radius ≤ 250) :
    b.radius ≤ (resolveWallsY b).y ∧ (resolveWallsY b).y ≤ 500 - b.radius := by
  unfold resolveWallsY
  split_ifs with h1 h2 <;> constructor <;> (try simp) <;> linarith

lemma resolveWalls_inBounds (b : Ball) (hr : b.radius ≤ 250) :
    inBounds (resolveWalls b) := by
  unfold resolveWalls
  obtain ⟨hx1, hx2, hxr⟩ := resolveWallsY_preserve (resolveWallsX b)
  obtain ⟨_, _, hrX⟩ := resolveWallsX_preserve b
  have hxb := resolveWallsX_bounds b hr
  have hyb := resolveWallsY_bounds (resolveWallsX b) (hrX ▸ hr)
  refine ⟨?_, ?_, ?_, ?_⟩
  · rw [hxr, hrX, hx1]; exact hxb.1
  · rw [hxr, hrX, hx1]; exact hxb.2
  · rw [hxr, hrX]; exact hrX ▸ hyb.1
  · rw [hxr, hrX]; exact hrX ▸ hyb.2

lemma move_radius (b : Ball) : b.move.radius = b.radius := rfl

lemma updateExplosionBall_inBounds (b : Ball) (hr : b.radius ≤ 250) :
    inBounds (updateExplosionBall b) :=
  resolveWalls_inBounds b.move (by rw [move_radius]; exact hr)

lemma create_explosion_mem {x y : ℚ} {v : ℤ} {R : ℕ → Draw} {k : ℕ} :
    ∀ b ∈ (create_explosion x y v R k).1,
      b.x = x ∧ b.y = y ∧ b.radius = EXPLOSION_BALL_RADIUS := by
  intro b hb
  unfold create_explosion at hb
  simp only [List.mem_map, List.mem_range] at hb
  obtain ⟨i, _, rfl⟩ := hb
  exact ⟨rfl, rfl, rfl⟩

lemma pairStep_inBounds (l : List Ball) (i j : ℕ)
    (h : ∀ b ∈ l, inBounds b) : ∀ b ∈ pairStep l i j, inBounds b := by
  intro c hc
  unfold pairStep at hc
  split at hc
  case _ a b hga hgb =>
    split_ifs at hc
    · rcases List.mem_or_eq_of_mem_set hc with hc1 | rfl
      · rcases List.mem_or_eq_of_mem_set hc1 with hc2 | rfl
        · exact h c hc2
        · obtain ⟨⟨e1, e2, e3⟩, _⟩ := handle_collision_pos a b
          have ha := h a (List.get?_mem hga)
          unfold inBounds at ha ⊢
          rw [e1, e2, e3]
          exact ha
      · obtain ⟨_, e1, e2, e3⟩ := handle_collision_pos a b
        have hb := h b (List.get?_mem hgb)
        unfold inBounds at hb ⊢
        rw [e1, e2, e3]
        exact hb
    · exact h c hc
  case _ => exact h c hc

lemma foldl_inBounds {β : Type} (g : List Ball → β → List Ball)
    (hg : ∀ acc x, (∀ b ∈ acc, inBounds b) → ∀ b ∈ g acc x, inBounds b) :
    ∀ (xs : List β) (acc : List Ball), (∀ b ∈ acc, inBounds b) →
      ∀ b ∈ xs.foldl g acc, inBounds b := by
  intro xs
  induction xs with
  | nil => intro acc h; simpa using h
  | cons x xs ih => intro acc h; exact ih _ (hg acc x h)

lemma collisionPass_inBounds (l : List Ball) (h : ∀ b ∈ l, inBounds b) :
    ∀ b ∈ collisionPass l, inBounds b := by
  unfold collisionPass
  refine foldl_inBounds _ ?_ _ _ h
  intro acc i hacc
  refine foldl_inBounds _ ?_ _ _ hacc
  intro acc2 j hacc2
  exact pairStep_inBounds acc2 i j hacc2

lemma updateBalls_out (v : ℤ) (R : ℕ → Draw) :
    ∀ (n : ℕ) (l : List Ball) (k : ℕ), l.length ≤ n →
      (∀ b ∈ l, inBounds b) →
      (∀ b ∈ (updateBalls v R l k).1, inBounds b) ∧
      (∀ b ∈ (updateBalls v R l k).2.1, b.radius = EXPLOSION_BALL_RADIUS) := by
  intro n
  induction n with
  | zero =>
    intro l k hl _
    have : l = [] := List.length_eq_zero.mp (Nat.le_zero.mp hl)
    subst this
    simp [updateBalls]
  | succ n ih =>
    intro l k hl h
    rcases l with _ | ⟨b, rest⟩
    · simp [updateBalls]
    rcases rest with _ | ⟨skipped, rest2⟩
    · simp only [updateBalls]
      split_ifs with hw
      · refine ⟨by simp, ?_⟩
        intro c hc
        exact (create_explosion_mem c hc).2.2
      · refine ⟨?_, by simp⟩
        intro c hc
        simp only [List.mem_singleton] at hc
        subst hc
        exact resolveWalls_inBounds b.move
          (by rw [move_radius]; exact inBounds_radius (h b (by simp)))
    · simp only [updateBalls]
      split_ifs with hw
      · have hr := ih rest2 ((create_explosion ({ b.move with
            x := 500 - b.move.radius,
            dx := b.move.dx * -BOUNCE_FACTOR } : Ball).x ({ b.move with
            x := 500 - b.move.radius,
            dx := b.move.dx * -BOUNCE_FACTOR } : Ball).y v R k).2)
          (by simp at hl ⊢; omega)
          (fun c hc => h c (by simp [hc]))
        constructor
        · intro c hc
          rcases List.mem_cons.mp hc with rfl | hc2
          · exact h c (by simp)
          · exact hr.1 c hc2
        · intro c hc
          rcases List.mem_append.mp hc with hc1 | hc2
          · exact (create_explosion_mem c hc1).2.2
          · exact hr.2 c hc2
      · have hr := ih (skipped :: rest2) k
          (by simp at hl ⊢; omega)
          (fun c hc => h c (List.mem_cons_of_mem b hc))
        constructor
        · intro c hc
          rcases List.mem_cons.mp hc with rfl | hc2
          · exact resolveWalls_inBounds b.move
              (by rw [move_radius]; exact inBounds_radius (h b (by simp)))
          · exact hr.1 c hc2
        · exact hr.2

/-- C1.  Wall containment is an inductive invariant of `step()`: if every
particle of the pre-step state lies within the canvas, then at the end of
`update` every particle of `mainBalls` and of `fragments` — including the
fragments spawned during this step, whose radius is the constant
`EXPLOSION_BALL_RADIUS = 5` — satisfies `radius ≤ x ≤ 500 - radius` and
`radius ≤ y ≤ 500 - radius`.  The pre-step containment hypothesis forces every
radius to be at most half the canvas size, which is what the clamping needs;
it is established at creation (balls spawn at `(50, 250)` with radius `10`,
fragments at the clamped impact point) and is needed only for a ball that the
iterator skips after the removal of its predecessor, since that ball keeps its
previous position. -/
theorem wall_containment_invariant (R : ℕ → Draw) (k : ℕ) (s : SimState)
    (hB : ∀ b ∈ s.balls, inBounds b)
    (hF : ∀ b ∈ s.explosion_balls, inBounds b) :
    (∀ b ∈ (update R k s).1.balls, inBounds b) ∧
    (∀ b ∈ (update R k s).1.explosion_balls, inBounds b) := by
  have hub := updateBalls_out s.velocity R s.balls.length s.balls k le_rfl hB
  constructor
  · intro b hb
    exact hub.1 b (by simpa [update] using hb)
  · intro b hb
    have hb2 : b ∈ collisionPass ((s.explosion_balls ++
        (updateBalls s.velocity R s.balls k).2.1).map updateExplosionBall) :=
      List.mem_of_mem_filter (by simpa [update] using hb)
    refine collisionPass_inBounds _ ?_ b hb2
    intro c hc
    simp only [List.mem_map] at hc
    obtain ⟨d, hd, rfl⟩ := hc
    apply updateExplosionBall_inBounds
    rcases List.mem_append.mp hd with h1 | h2
    · exact inBounds_radius (hF d h1)
    · rw [hub.2 d h2]
      norm_num [EXPLOSION_BALL_RADIUS]

/-- Witness for C1 at a concrete in-bounds state with one main ball and one
fragment. -/
theorem wall_containment_invariant_witness :
    let s : SimState :=
      { balls := [{ x := 50, y := 250, dx := 40, dy := 0,
                    radius := 10, color := "red" }],
        explosion_balls := [{ x := 495, y := 495, dx := 3, dy := 4,
                              radius := 5, color := "b" }],
        velocity := 40 }
    (∀ b ∈ s.balls, inBounds b) ∧ (∀ b ∈ s.explosion_balls, inBounds b) ∧
    (∀ b ∈ (update Rzero 0 s).1.balls, inBounds b) ∧
    (∀ b ∈ (update Rzero 0 s).1.explosion_balls, inBounds b) := by
  intro s
  have h1 : ∀ b ∈ s.balls, inBounds b := by with_unfolding_all decide
  have h2 : ∀ b ∈ s.explosion_balls, inBounds b := by with_unfolding_all decide
  have h := wall_containment_invariant Rzero 0 s h1 h2
  exact ⟨h1, h2, h.1, h.2⟩

/-! ## C6: pruning threshold -/

/-- C6.  At the end of `update`, a fragment that survived up to the pruning
point (that is, a member of the post-collision fragment list, after this
step's integration, wall resolution and pairwise collisions) is absent from
the final fragment list if and only if both `|dx| ≤ 0.1` and `|dy| ≤ 0.1`
hold for it; if either axis still exceeds the rest threshold it is
retained. -/
theorem pruning_threshold (R : ℕ → Draw) (k : ℕ) (s : SimState) (b : Ball)
    (hb : b ∈ collisionPass ((s.explosion_balls ++
        (updateBalls s.velocity R s.balls k).2.1).map updateExplosionBall)) :
    (b ∉ (update R k s).1.explosion_balls ↔
      (|b.dx| ≤ 1/10 ∧ |b.dy| ≤ 1/10)) := by
  have he : (update R k s).1.explosion_balls =
      (collisionPass ((s.explosion_balls ++
        (updateBalls s.velocity R s.balls k).2.1).map updateExplosionBall)).filter
        keepBall := rfl
  rw [he, List.mem_filter]
  simp only [hb, true_and, keepBall, Bool.or_eq_true, decide_eq_true_eq]
  rw [not_or, not_lt, not_lt]

/-- Fragment whose post-step velocity is exactly `(0.1, 0.05)` (the claim's
removal example): pre-step `dy = -9/20` so that gravity brings it to `1/20`. -/
def fragC6 : Ball :=
  { x := 100, y := 100, dx := 1/10, dy := -9/20, radius := 5, color := "f" }

/-- State holding only `fragC6`. -/
def sC6 : SimState := { balls := [], explosion_balls := [fragC6], velocity := 0 }

/-- Value of `fragC6` after this step's integration (no wall contact, no
collision partner): velocity `(0.1, 0.05)`. -/
def bC6 : Ball :=
  { x := 1001/10, y := 1991/20, dx := 1/10, dy := 1/20, radius := 5, color := "f" }

/-- Fragment whose post-step velocity is exactly `(0.15, 0)` (the claim's
retention example). -/
def fragC6r : Ball :=
  { x := 100, y := 100, dx := 3/20, dy := -1/2, radius := 5, color := "f" }

/-- State holding only `fragC6r`. -/
def sC6r : SimState :=
  { balls := [], explosion_balls := [fragC6r], velocity := 0 }

/-- Value of `fragC6r` after this step's integration. -/
def bC6r : Ball :=
  { x := 2003/20, y := 199/2, dx := 3/20, dy := 0, radius := 5, color := "f" }

set_option maxRecDepth 100000 in
/-- Witness for C6: the fragment ending the step with velocity `(0.1, 0.05)`
is removed (via the theorem), and the one ending with `(0.15, 0)` is
retained. -/
theorem pruning_threshold_witness :
    (bC6 ∈ collisionPass ((sC6.explosion_balls ++
        (updateBalls sC6.velocity Rzero sC6.balls 0).2.1).map
        updateExplosionBall)) ∧
    bC6 ∉ (update Rzero 0 sC6).1.explosion_balls ∧
    (update Rzero 0 sC6r).1.explosion_balls = [bC6r] := by
  have hb : bC6 ∈ collisionPass ((sC6.explosion_balls ++
      (updateBalls sC6.velocity Rzero sC6.balls 0).2.1).map
      updateExplosionBall) := by with_unfolding_all decide
  refine ⟨hb, ?_, by with_unfolding_all decide⟩
  exact (pruning_threshold Rzero 0 sC6 bC6 hb).mpr (by with_unfolding_all decide)

/-! ## C3: integration law -/

lemma updateBalls_noRight (v : ℤ) (R : ℕ → Draw) :
    ∀ (l : List Ball) (k : ℕ),
      (∀ b ∈ l, b.move.x + b.radius ≤ 500) →
      updateBalls v R l k = (l.map fun b => resolveWalls b.move, [], k) := by
  intro l
  induction l with
  | nil => intro k _; simp [updateBalls]
  | cons b rest ih =>
    intro k h
    have hcond : ¬ 500 < b.move.x + b.move.radius := by
      rw [move_radius]
      exact not_lt.mpr (h b (by simp))
    rcases rest with _ | ⟨skipped, rest2⟩
    · simp [updateBalls, hcond]
    · simp only [updateBalls, if_neg hcond]
      rw [ih k (fun c hc => h c (List.mem_cons_of_mem b hc))]
      simp

/-- C3 (amended).  In a step during which no main ball crosses the right wall
(so no ball is removed and no ball is skipped by the iterator), every main
ball that makes no wall contact after integration ends the step with its
position advanced by exactly its pre-step velocity, `dy` increased by exactly
`GRAVITY`, and `dx` unchanged.  The restriction to steps without a right-wall
crossing is forced by the source's remove-while-iterating pattern: a ball
immediately following a removed ball is skipped and does not move at all that
step (see the counterexample). -/
theorem integration_law_amended (R : ℕ → Draw) (k : ℕ) (s : SimState)
    (hnr : ∀ b ∈ s.balls, b.move.x + b.radius ≤ 500)
    (i : ℕ) (hi : i < s.balls.length)
    (hL : 0 ≤ (s.balls.get ⟨i, hi⟩).move.x - (s.balls.get ⟨i, hi⟩).radius)
    (hB : (s.balls.get ⟨i, hi⟩).move.y + (s.balls.get ⟨i, hi⟩).radius ≤ 500)
    (hT : 0 ≤ (s.balls.get ⟨i, hi⟩).move.y - (s.balls.get ⟨i, hi⟩).radius) :
    ∃ hi2 : i < (update R k s).1.balls.length,
      ((update R k s).1.balls.get ⟨i, hi2⟩).x
        = (s.balls.get ⟨i, hi⟩).x + (s.balls.get ⟨i, hi⟩).dx ∧
      ((update R k s).1.balls.get ⟨i, hi2⟩).y
        = (s.balls.get ⟨i, hi⟩).y + (s.balls.get ⟨i, hi⟩).dy ∧
      ((update R k s).1.balls.get ⟨i, hi2⟩).dx = (s.balls.get ⟨i, hi⟩).dx ∧
      ((update R k s).1.balls.get ⟨i, hi2⟩).dy
        = (s.balls.get ⟨i, hi⟩).dy + GRAVITY := by
  have hb : (update R k s).1.balls = s.balls.map fun b => resolveWalls b.move := by
    show (updateBalls s.velocity R s.balls k).1 = _
    rw [updateBalls_noRight s.velocity R s.balls k hnr]
  have hlen : i < (update R k s).1.balls.length := by
    rw [hb, List.length_map]; exact hi
  refine ⟨hlen, ?_⟩
  have hget : (update R k s).1.balls.get ⟨i, hlen⟩
      = resolveWalls (s.balls.get ⟨i, hi⟩).move := by
    simp only [List.get_eq_getElem]
    simp only [hb, List.getElem_map]
  have h1 : ¬ 500 < (s.balls.get ⟨i, hi⟩).move.x
      + (s.balls.get ⟨i, hi⟩).move.radius := by
    rw [move_radius]
    exact not_lt.mpr (hnr _ (List.get_mem s.balls i hi))
  have h2 : ¬ (s.balls.get ⟨i, hi⟩).move.x
      - (s.balls.get ⟨i, hi⟩).move.radius < 0 := by
    rw [move_radius]; exact not_lt.mpr hL
  have h3 : ¬ 500 < (s.balls.get ⟨i, hi⟩).move.y
      + (s.balls.get ⟨i, hi⟩).move.radius := by
    rw [move_radius]; exact not_lt.mpr hB
  have h4 : ¬ (s.balls.get ⟨i, hi⟩).move.y
      - (s.balls.get ⟨i, hi⟩).move.radius < 0 := by
    rw [move_radius]; exact not_lt.mpr hT
  have hres : resolveWalls (s.balls.get ⟨i, hi⟩).move
      = (s.balls.get ⟨i, hi⟩).move := by
    unfold resolveWalls resolveWallsX
    rw [if_neg h1, if_neg h2]
    unfold resolveWallsY
    rw [if_neg h3, if_neg h4]
  rw [hget, hres]
  exact ⟨rfl, rfl, rfl, rfl⟩

/-- Ball that crosses the right wall this step (with `velocity = 0` recorded,
so its explosion spawns no fragment). -/
def ballA : Ball :=
  { x := 480, y := 100, dx := 30, dy := 0, radius := 10, color := "red" }

/-- Ball in mid-air with no wall contact this step and nonzero velocity. -/
def ballB : Ball :=
  { x := 200, y := 200, dx := 5, dy := 0, radius := 10, color := "red" }

/-- State with `ballA` followed by `ballB`. -/
def sC3 : SimState :=
  { balls := [ballA, ballB], explosion_balls := [], velocity := 0 }

/-- Counterexample to C3 as stated.  `ballB` makes no wall contact and has
`dx = 5 ≠ 0`, yet after the step it is returned completely unchanged —
its position did not advance by its velocity — because the removal of the
preceding `ballA` (right-wall impact) makes the source's iterator skip it. -/
theorem integration_law_counterexample :
    (ballB.move.x + ballB.radius ≤ 500 ∧ 0 ≤ ballB.move.x - ballB.radius ∧
     ballB.move.y + ballB.radius ≤ 500 ∧ 0 ≤ ballB.move.y - ballB.radius) ∧
    (update Rzero 0 sC3).1.balls = [ballB] ∧
    ballB.dx ≠ 0 := by
  with_unfolding_all decide

/-- Witness for the amended C3 at a concrete one-ball state. -/
theorem integration_law_amended_witness :
    let s : SimState :=
      { balls := [{ x := 100, y := 100, dx := 3, dy := 1,
                    radius := 10, color := "red" }],
        explosion_balls := [], velocity := 0 }
    ∃ hi2 : 0 < (update Rzero 0 s).1.balls.length,
      ((update Rzero 0 s).1.balls.get ⟨0, hi2⟩).x = 103 ∧
      ((update Rzero 0 s).1.balls.get ⟨0, hi2⟩).dy = 1 + GRAVITY := by
  intro s
  have h := integration_law_amended Rzero 0 s
    (by with_unfolding_all decide) 0 (by with_unfolding_all decide)
    (by with_unfolding_all decide) (by with_unfolding_all decide)
    (by with_unfolding_all decide)
  obtain ⟨hi2, hx, _, _, hdy⟩ := h
  refine ⟨hi2, ?_, ?_⟩
  · rw [hx]; with_unfolding_all decide
  · rw [hdy]; with_unfolding_all decide

/-! ## C7: bounce damping -/

/-- C7 (amended).  For a particle that starts the step inside the canvas and
triggers a wall branch, the horizontal walls behave exactly as the claim
states: the incoming `dx` points toward the wall (`0 < dx` at the right wall,
`dx < 0` at the left wall) and leaves as `dx * -BOUNCE_FACTOR` (magnitude
damped by `BOUNCE_FACTOR`, sign flipped).  At the vertical walls, however, the
damping is applied to the gravity-updated component: the outgoing `dy` is
`(dy + GRAVITY) * -BOUNCE_FACTOR`, not `dy * -BOUNCE_FACTOR`, because
`Ball.move` adds `GRAVITY` to `dy` before the wall test runs.  At the bottom
wall (`0 < dy`) this still flips the sign; at the top wall (`dy < 0`) the
outgoing component is positive only when `GRAVITY < -dy`, so a slow upward
ball can leave the top-wall branch still moving upward (see the
counterexample).  The statement is about `updateExplosionBall`, the
move-then-resolve path `update` applies to every processed particle; the main
ball right-wall branch applies the identical `dx * -BOUNCE_FACTOR` damping
before the ball is removed. -/
theorem bounce_damping_amended (b : Ball) (hin : inBounds b) :
    (500 < b.move.x + b.radius →
      0 < b.dx ∧ (updateExplosionBall b).dx = b.dx * -BOUNCE_FACTOR) ∧
    (b.move.x - b.radius < 0 →
      b.dx < 0 ∧ (updateExplosionBall b).dx = b.dx * -BOUNCE_FACTOR) ∧
    (500 < b.move.y + b.radius →
      0 < b.dy ∧
        (updateExplosionBall b).dy = (b.dy + GRAVITY) * -BOUNCE_FACTOR) ∧
    (b.move.y - b.radius < 0 →
      b.dy < 0 ∧
        (updateExplosionBall b).dy = (b.dy + GRAVITY) * -BOUNCE_FACTOR) := by
  obtain ⟨a1, a2, a3, a4⟩ := hin
  have hr : b.radius ≤ 250 := by linarith
  have hmx : b.move.x = b.x + b.dx := rfl
  have hmy : b.move.y = b.y + b.dy := rfl
  obtain ⟨py, pdy, prad⟩ := resolveWallsX_preserve b.move
  refine ⟨?_, ?_, ?_, ?_⟩
  · intro h
    have hdx : 0 < b.dx := by rw [hmx] at h; linarith
    have hc : 500 < b.move.x + b.move.radius := by rw [move_radius]; exact h
    have hX : (resolveWallsX b.move).dx = b.move.dx * -BOUNCE_FACTOR := by
      unfold resolveWallsX
      rw [if_pos hc]
    refine ⟨hdx, ?_⟩
    calc (updateExplosionBall b).dx
        = (resolveWallsX b.move).dx := (resolveWallsY_preserve _).2.1
      _ = b.dx * -BOUNCE_FACTOR := hX
  · intro h
    have hdx : b.dx < 0 := by rw [hmx] at h; linarith
    have hnc : ¬ 500 < b.move.x + b.move.radius := by
      rw [move_radius, hmx]
      rw [hmx] at h
      linarith
    have hc : b.move.x - b.move.radius < 0 := by rw [move_radius]; exact h
    have hX : (resolveWallsX b.move).dx = b.move.dx * -BOUNCE_FACTOR := by
      unfold resolveWallsX
      rw [if_neg hnc, if_pos hc]
    refine ⟨hdx, ?_⟩
    calc (updateExplosionBall b).dx
        = (resolveWallsX b.move).dx := (resolveWallsY_preserve _).2.1
      _ = b.dx * -BOUNCE_FACTOR := hX
  · intro h
    have hdy : 0 < b.dy := by rw [hmy] at h; linarith
    have hc : 500 < (resolveWallsX b.move).y + (resolveWallsX b.move).radius := by
      rw [py, prad, move_radius]
      exact h
    have hY : (resolveWallsY (resolveWallsX b.move)).dy
        = (resolveWallsX b.move).dy * -BOUNCE_FACTOR := by
      unfold resolveWallsY
      rw [if_pos hc]
    refine ⟨hdy, ?_⟩
    calc (updateExplosionBall b).dy
        = (resolveWallsX b.move).dy * -BOUNCE_FACTOR := hY
      _ = (b.dy + GRAVITY) * -BOUNCE_FACTOR := by rw [pdy]; exact rfl
  · intro h
    have hdy : b.dy < 0 := by rw [hmy] at h; linarith
    have hnc : ¬ 500 < (resolveWallsX b.move).y
        + (resolveWallsX b.move).radius := by
      rw [py, prad, move_radius, hmy]
      rw [hmy] at h
      linarith
    have hc : (resolveWallsX b.move).y - (resolveWallsX b.move).radius < 0 := by
      rw [py, prad, move_radius]
      exact h
    have hY : (resolveWallsY (resolveWallsX b.move)).dy
        = (resolveWallsX b.move).dy * -BOUNCE_FACTOR := by
      unfold resolveWallsY
      rw [if_neg hnc, if_pos hc]
    refine ⟨hdy, ?_⟩
    calc (updateExplosionBall b).dy
        = (resolveWallsX b.move).dy * -BOUNCE_FACTOR := hY
      _ = (b.dy + GRAVITY) * -BOUNCE_FACTOR := by rw [pdy]; exact rfl

/-- Fragment heading slowly upward near the top wall: it starts in bounds at
`y = 5.2` with `dy = -0.4`, so this step it crosses the top wall. -/
def fragC7 : Ball :=
  { x := 100, y := 26/5, dx := 1, dy := -(2/5), radius := 5, color := "f" }

/-- State holding only `fragC7`. -/
def sC7 : SimState := { balls := [], explosion_balls := [fragC7], velocity := 0 }

set_option maxRecDepth 100000 in
/-- Counterexample to C7 as stated.  `fragC7` starts the step in bounds and
triggers the top-wall branch with incoming upward speed `s = 0.4 > 0`; the
claim predicts outgoing normal speed `0.4 * 0.7 = 0.28` with flipped
(downward) sign, but after the step its `dy` is `-0.07`: the damping was
applied to the gravity-updated component `-0.4 + 0.5 = 0.1`, the magnitude is
`0.07 ≠ 0.28`, and the sign did not flip (it is still negative, still moving
toward the top wall). -/
theorem bounce_damping_counterexample :
    inBounds fragC7 ∧
    fragC7.move.y - fragC7.radius < 0 ∧
    fragC7.dy = -(2/5) ∧
    (update Rzero 0 sC7).1.explosion_balls =
      [{ x := 101, y := 5, dx := 1, dy := -(7/100), radius := 5,
         color := "f" }] ∧
    ¬ (|(-(7/100) : ℚ)| = BOUNCE_FACTOR * (2/5)) ∧
    (-(7/100) : ℚ) < 0 := by
  with_unfolding_all decide

/-- Witness for the amended C7 at a concrete ball hitting the right wall with
incoming `dx = 30`. -/
theorem bounce_damping_amended_witness :
    let b : Ball := { x := 480, y := 100, dx := 30, dy := 0,
                      radius := 10, color := "red" }
    inBounds b ∧ 500 < b.move.x + b.radius ∧ 0 < b.dx ∧
    (updateExplosionBall b).dx = b.dx * -BOUNCE_FACTOR ∧
    (updateExplosionBall b).dx = -21 := by
  intro b
  have h1 : inBounds b := by with_unfolding_all decide
  have h2 : 500 < b.move.x + b.radius := by with_unfolding_all decide
  have h := (bounce_damping_amended b h1).1 h2
  exact ⟨h1, h2, h.1, h.2, by with_unfolding_all decide⟩

/-! ## C9: reset postcondition -/

/-- C9 (amended).  `refresh_simulation` empties both particle collections and
leaves the rest of the simulation state alone: in particular it does NOT
reset `lastLaunchVelocity` (the global `velocity`), which keeps whatever value
the last `throw_ball` recorded.  `update` never changes `velocity` either, so
`throw_ball` is the only embedded operation that modifies it.  The global
constants are immutable definitions, untouched by every operation. -/
theorem reset_postcondition_amended :
    (∀ s : SimState, (refresh_simulation s).balls = [] ∧
      (refresh_simulation s).explosion_balls = [] ∧
      (refresh_simulation s).velocity = s.velocity) ∧
    (∀ (R : ℕ → Draw) (k : ℕ) (s : SimState),
      (update R k s).1.velocity = s.velocity) ∧
    (∀ (v : ℤ) (s : SimState), (throw_ball v s).velocity = v) :=
  ⟨fun _ => ⟨rfl, rfl, rfl⟩, fun _ _ _ => rfl, fun _ _ => rfl⟩

/-- Counterexample to C9 as stated.  After `throw_ball 40`, a reset leaves
`velocity = 40`, not its initial value `0`: `refresh_simulation` clears only
the two particle lists. -/
theorem reset_velocity_counterexample :
    (refresh_simulation (throw_ball 40 initState)).velocity = 40 ∧
    initState.velocity = 0 ∧ (40 : ℤ) ≠ 0 :=
  ⟨rfl, rfl, by decide⟩

/-! ## C2: end-to-end fragmentation scenario -/

/-- Deterministic injected random source for the end-to-end scenario: every
fragment draw yields velocity `(1, 2)` (a speed of `sqrt 5` at a fixed
angle). -/
def Rc : ℕ → Draw := fun _ => { vdx := 1, vdy := 2, color := "#87ceeb" }

/-- The end-to-end scenario of the spec: from the initial (reset) state,
`launch(40)` and twelve frames of `update`.  During frames 1 to 11 the ball
travels from `x = 50` to `x = 490` without touching any wall; in frame 12 its
moved position `x = 530` crosses the right wall (`530 + 10 > 500`), it is
clamped to `(490, 283)`, explodes and is removed. -/
def scenarioC2 : SimState × ℕ := stepN Rc 12 (throw_ball 40 initState, 0)

set_option maxRecDepth 1000000 in
/-- Counterexample to C2 as stated.  After frame 11 the ball sits at
`(490, 277.5)` with velocity `(40, 5.5)`, so frame 12 clamps the impact at
`(490, 283)`; at the end of frame 12 the ball is gone and exactly
`floor(40/2) = 20` fragments exist — but none of them is at the impact point:
the fragment loop of the same `update` call has already integrated them, so
each sits at the impact point displaced by its initial velocity, `(491, 285)`
for the injected draws. -/
theorem endToEnd_positions_counterexample :
    (stepN Rc 11 (throw_ball 40 initState, 0)).1.balls =
      [{ x := 490, y := 555/2, dx := 40, dy := 11/2,
         radius := 10, color := "red" }] ∧
    scenarioC2.1.balls = [] ∧
    scenarioC2.1.explosion_balls.length = 20 ∧
    (∀ f ∈ scenarioC2.1.explosion_balls, f.x = 491 ∧ f.y = 285) ∧
    ¬ (∀ f ∈ scenarioC2.1.explosion_balls, f.x = 490 ∧ f.y = 283) := by
  with_unfolding_all decide

set_option maxRecDepth 1000000 in
/-- C2 (amended).  In the scenario — `reset()`, `launch(40)`, stepping until
the ball's `x + radius` exceeds 500 (which happens at frame 12) — at the end
of that step the main ball has been removed, `fragments` holds exactly
`floor(40/2) = 20` new particles, and every new fragment was SPAWNED at the
clamped wall-impact point `(490, 283)` and then advanced by the same step's
fragment integration: it ends the step at the impact point plus its initial
velocity (with `GRAVITY` added to `dy` after the move). -/
theorem endToEnd_scenario_amended :
    scenarioC2.1.balls = [] ∧
    scenarioC2.1.explosion_balls.length = 20 ∧
    (∀ f ∈ scenarioC2.1.explosion_balls,
      f.x = 490 + 1 ∧ f.y = 283 + 2 ∧ f.dx = 1 ∧ f.dy = 2 + GRAVITY ∧
      f.radius = EXPLOSION_BALL_RADIUS) := by
  with_unfolding_all decide

set_option maxRecDepth 1000000 in
/-- Witness for the amended C2: the concrete fragment value reached at the
end of frame 12 is a member of the final fragment list, and the amended
theorem applied to it gives its position as the impact point advanced by its
initial velocity. -/
theorem endToEnd_scenario_amended_witness :
    let f : Ball := { x := 491, y := 285, dx := 1, dy := 5/2,
                      radius := 5, color := "#87ceeb" }
    f ∈ scenarioC2.1.explosion_balls ∧
    f.x = 490 + 1 ∧ f.y = 283 + 2 ∧ f.dx = 1 ∧ f.dy = 2 + GRAVITY ∧
    f.radius = EXPLOSION_BALL_RADIUS := by
  intro f
  have hm : f ∈ scenarioC2.1.explosion_balls := by with_unfolding_all decide
  exact ⟨hm, endToEnd_scenario_amended.2.2 f hm⟩

end Explosions
